import Mathlib

/-!
Verification of the `gha` GitHub App CLI proxy (sZma5a/github-app-cli).

The Go sources are shallowly embedded as executable Lean definitions:

* `internal/config/config.go` — the validation part of `Load`;
* `internal/auth/auth.go` — the JWT claim construction in `GenerateJWT`,
  PEM-block scanning in `findRSAKey`/`parsePKCS1OrPKCS8`, and the response
  handling in `GetInstallationToken`;
* `internal/proxy/proxy.go` — `filterEnv` and `buildEnv`;
* `cmd.go` — `parseInstallationFlags`, `resolveInstallationFromEnv`,
  `resolveInstallationByOrg`, `resolveInstallationID`, `resolveInstallation`.

Machine int64 values are modelled as `Int`; the only place Go's 64-bit range
matters is `strconv.ParseInt`, whose range check is modelled explicitly.
Go byte strings are modelled as Lean `String`s (all constants involved are
ASCII). Network calls (`auth.GetInstallations`) are modelled by passing the
fetched installation listing as an explicit argument; the HTTP response of
the token exchange is modelled by its status code, raw body, and the outcome
of `json.Unmarshal` on that body.
-/

namespace GhaCli

/-! ### String helpers modelling Go's `strings` and `strconv` functions -/

/-- Character-list version of Go `strings.HasPrefix` (byte prefix on valid
UTF-8 coincides with character-sequence prefix). -/
def listStartsWith : List Char → List Char → Bool
  | [], _ => true
  | _ :: _, [] => false
  | p :: ps, c :: cs => p == c && listStartsWith ps cs

/-- Go `strings.HasPrefix s pre`. -/
def goStartsWith (s pre : String) : Bool :=
  listStartsWith pre.data s.data

/-- Go `strings.TrimPrefix s pre`: drops `pre` when it is a prefix, else
returns `s` unchanged. -/
def goTrimStart (s pre : String) : String :=
  if goStartsWith s pre then String.mk (s.data.drop pre.data.length) else s

/-- Go `strings.Join l sep`. -/
def goJoin (sep : String) : List String → String
  | [] => ""
  | [x] => x
  | x :: y :: xs => x ++ sep ++ goJoin sep (y :: xs)

/-- Go `strconv.ParseInt s 10 64`: optional sign, at least one ASCII digit,
result within the int64 range; `none` models a non-nil error (the caller in
`cmd.go` only uses the value when the error is nil, so a range error —
which Go reports alongside a clamped value — is `none` here too). -/
def go_parseInt64 (s : String) : Option Int :=
  match s.data with
  | [] => none
  | c :: rest =>
    let signed : Bool × List Char :=
      if c = '-' then (true, rest)
      else if c = '+' then (false, rest) else (false, c :: rest)
    match signed with
    | (neg, digits) =>
      if digits = [] then none
      else if digits.all (fun d => '0' ≤ d && d ≤ '9') then
        let n : Nat := digits.foldl (fun acc d => acc * 10 + (d.toNat - '0'.toNat)) 0
        let v : Int := if neg then -(n : Int) else (n : Int)
        if -(2 ^ 63) ≤ v ∧ v ≤ 2 ^ 63 - 1 then some v else none
      else none

/-! ### `internal/config/config.go` -/

/-- `config.Config`: the persisted credentials. -/
structure Config where
  appID : Int
  installationID : Int
  privateKeyPath : String
deriving DecidableEq, Repr

/-- The validation performed at the end of `config.Load` (config.go lines
52–60) once the YAML has been read and unmarshalled successfully; the file
I/O and YAML decoding in front of it are external collaborators. -/
def loadValidate (cfg : Config) : Except String Config :=
  if cfg.appID = 0 then .error "app_id is required in config"
  else if cfg.installationID = 0 then .error "installation_id is required in config"
  else if cfg.privateKeyPath = "" then .error "private_key_path is required in config"
  else .ok cfg

/-! ### `internal/auth/auth.go` — JWT claims -/

/-- The registered claims built by `GenerateJWT`: issuer, issued-at and
expiry. Instants are modelled as integer Unix seconds; `now` is the value of
`time.Now()` at the moment of the call. -/
structure JWTClaims where
  issuer : String
  issuedAt : Int
  expiresAt : Int
deriving DecidableEq, Repr

/-- Claim construction in `GenerateJWT` (auth.go lines 52–57):
`IssuedAt = now - 30s`, `ExpiresAt = now + 10m`,
`Issuer = strconv.FormatInt(appID, 10)`. -/
def generateJWTClaims (appID : Int) (now : Int) : JWTClaims :=
  { issuer := toString appID
    issuedAt := now - 30
    expiresAt := now + 600 }

/-! ### `internal/auth/auth.go` — token exchange response handling -/

/-- The JSON shape `installationTokenResponse` (`token`, `expires_at`);
the timestamp is an abstract instant. -/
structure InstallationTokenResponse where
  token : String
  expiresAt : Int
deriving DecidableEq, Repr

/-- The response handling of `GetInstallationToken` (auth.go lines 137–150),
after the body has been read: `statusCode` and `body` are the HTTP response's
status and raw (size-capped) body, and `unmarshal` is the outcome of
`json.Unmarshal` on that body (`json` decoding itself is an external
collaborator). `http.StatusCreated` is 201. -/
def handleTokenResponse (statusCode : Nat) (body : String)
    (unmarshal : Except String InstallationTokenResponse) : Except String String :=
  if statusCode ≠ 201 then
    .error ("GitHub API error (HTTP " ++ toString statusCode ++ "): " ++ body)
  else
    match unmarshal with
    | .error e => .error ("parsing token response: " ++ e)
    | .ok tokenResp =>
      if tokenResp.token = "" then .error "GitHub API returned empty token"
      else .ok tokenResp.token

/-! ### `internal/proxy/proxy.go` — child environment construction -/

/-- `proxy.filterEnv` (proxy.go lines 57–72): keep exactly the entries that
do not start with `key ++ "="` for any deny-listed `key`, in order. -/
def filterEnv (env : List String) (keys : List String) : List String :=
  env.filter (fun e => !(keys.any (fun key => goStartsWith e (key ++ "="))))

/-- `proxy.buildEnv` (proxy.go lines 23–26): filter out `GH_TOKEN` and
`GITHUB_TOKEN`, then append the freshly minted token entry. -/
def buildEnv (env : List String) (token : String) : List String :=
  filterEnv env ["GH_TOKEN", "GITHUB_TOKEN"] ++ ["GH_TOKEN=" ++ token]

/-- The name part of an environment entry `NAME=value` (analysis helper for
stating the claim about variable names; not part of the Go source). -/
def envVarName (e : String) : String :=
  String.mk (e.data.takeWhile (fun c => c ≠ '='))

/-! ### `cmd.go` — installation resolution -/

/-- One entry of the `GET /app/installations` listing; `login` models the
nested `Account.Login` field. -/
structure Installation where
  id : Int
  login : String
deriving DecidableEq, Repr

/-- `installationOverride` (cmd.go lines 164–167): per-command installation
selection parsed from flags or environment variables; zero `id` and empty
`org` are the Go zero values meaning absent. -/
structure installationOverride where
  id : Int := 0
  org : String := ""
deriving DecidableEq, Repr

/-- The assignment a `--installation-id` value performs (cmd.go lines
178–180 and 183–185): the override is updated only when `strconv.ParseInt`
succeeds with a strictly positive value. -/
def setID (o : installationOverride) (v : String) : installationOverride :=
  match go_parseInt64 v with
  | some id => if id > 0 then { o with id := id } else o
  | none => o

/-- The loop body of `parseInstallationFlags` (cmd.go lines 175–195): `o` is
the override accumulated so far and `acc` the remaining (forwarded)
arguments accumulated so far, in order. The Go switch cases appear in source
order; a `--installation-id` or `--org` with a following argument consumes
it as the value, the `=` forms consume only themselves, and anything else is
kept for the child command. -/
def parseLoop : List String → installationOverride → List String →
    installationOverride × List String
  | [], o, acc => (o, acc)
  | a :: rest, o, acc =>
    if a = "--installation-id" then
      match rest with
      | v :: tail => parseLoop tail (setID o v) acc
      | [] => (o, acc ++ [a])
    else if goStartsWith a "--installation-id=" then
      parseLoop rest (setID o (goTrimStart a "--installation-id=")) acc
    else if a = "--org" then
      match rest with
      | v :: tail => parseLoop tail { o with org := v } acc
      | [] => (o, acc ++ [a])
    else if goStartsWith a "--org=" then
      parseLoop rest { o with org := goTrimStart a "--org=" } acc
    else
      parseLoop rest o (acc ++ [a])

/-- `parseInstallationFlags` (cmd.go lines 171–198). -/
def parseInstallationFlags (args : List String) : installationOverride × List String :=
  parseLoop args {} []

/-- Whether the argument list ends while a value-taking flag is still
waiting for its value, i.e. whether one more trailing argument would be
consumed as a flag value rather than parsed as a flag (analysis helper for
stating C10; not part of the Go source). -/
def dangles : List String → Bool
  | [] => false
  | a :: rest =>
    if a = "--installation-id" ∨ a = "--org" then
      match rest with
      | [] => true
      | _ :: tail => dangles tail
    else dangles rest

/-- `resolveInstallationFromEnv` (cmd.go lines 201–212): `envID` and
`envOrg` are the values of `GHA_INSTALLATION_ID` and `GHA_ORG` (`os.Getenv`
returns the empty string for an unset variable). -/
def resolveInstallationFromEnv (envID envOrg : String) : installationOverride :=
  let o : installationOverride := {}
  let o :=
    if envID ≠ "" then
      match go_parseInt64 envID with
      | some id => if id > 0 then { o with id := id } else o
      | none => o
    else o
  if envOrg ≠ "" then { o with org := envOrg } else o

/-- ASCII lower-casing of a character, as Go's `strings.EqualFold` folds
ASCII letters. -/
def toLowerAscii (c : Char) : Char :=
  if 'A' ≤ c ∧ c ≤ 'Z' then Char.ofNat (c.toNat + 32) else c

/-- Pairwise case-folded comparison of two character sequences. -/
def foldEqChars : List Char → List Char → Bool
  | [], [] => true
  | a :: as, b :: bs => toLowerAscii a == toLowerAscii b && foldEqChars as bs
  | _, _ => false

/-- Go `strings.EqualFold`, modelled with the ASCII simple fold (non-ASCII
characters compare by identity; Go additionally folds non-ASCII letters via
`unicode.SimpleFold`, immaterial here since GitHub logins are ASCII). -/
def goEqualFold (s t : String) : Bool :=
  foldEqChars s.data t.data

/-- Lower-case hexadecimal digit, for `goQuoteChar`. -/
def hexDigit (n : Nat) : Char :=
  if n < 10 then Char.ofNat ('0'.toNat + n) else Char.ofNat ('a'.toNat + (n - 10))

/-- How Go's `%q` verb (`strconv.Quote`) renders one character: quote and
backslash are escaped, printable ASCII is kept, control characters get their
named or `\xHH` escapes. Non-ASCII characters are kept verbatim (Go keeps
exactly the printable ones; the difference is immaterial to the claims,
which concern printable ASCII logins). -/
def goQuoteChar (c : Char) : String :=
  if c = '"' then "\\\""
  else if c = '\\' then "\\\\"
  else if 0x20 ≤ c.toNat ∧ c.toNat ≤ 0x7e then String.singleton c
  else if c = '\x07' then "\\a"
  else if c = '\x08' then "\\b"
  else if c = '\x0c' then "\\f"
  else if c = '\n' then "\\n"
  else if c = '\r' then "\\r"
  else if c = '\t' then "\\t"
  else if c = '\x0b' then "\\v"
  else if c.toNat < 0x80 then
    "\\x" ++ String.mk [hexDigit (c.toNat / 16), hexDigit (c.toNat % 16)]
  else String.singleton c

/-- Body of `goQuote`: each character rendered in sequence. -/
def quoteBody : List Char → String
  | [] => ""
  | c :: cs => goQuoteChar c ++ quoteBody cs

/-- Go's `%q` verb on a string: the rendered characters between quotes. -/
def goQuote (s : String) : String :=
  "\"" ++ quoteBody s.data ++ "\""

/-- A character `%q` renders as itself: printable ASCII other than quote
and backslash. -/
def plainChar (c : Char) : Bool :=
  0x20 ≤ c.toNat && c.toNat ≤ 0x7e && c ≠ '"' && c ≠ '\\'

/-- The line `fmt.Sprintf("  %d (%s)", inst.ID, inst.Account.Login)` used in
both enumeration error messages (cmd.go lines 229 and 306). -/
def instLine (inst : Installation) : String :=
  "  " ++ toString inst.id ++ " (" ++ inst.login ++ ")"

/-- `resolveInstallationByOrg` (cmd.go lines 215–232). The listing the Go
code fetches via `auth.GetInstallations(jwtToken)` is passed as `insts`; the
first installation whose account login matches case-insensitively wins. -/
def resolveInstallationByOrg (insts : List Installation) (org : String) : Except String Int :=
  match insts.find? (fun inst => goEqualFold inst.login org) with
  | some inst => .ok inst.id
  | none =>
    .error ("no installation found for org " ++ goQuote org ++ ", available:\n" ++
      goJoin "\n" (insts.map instLine))

/-- `resolveInstallationID` (cmd.go lines 292–310): auto-detection from the
listing. -/
def resolveInstallationID (insts : List Installation) : Except String Int :=
  match insts with
  | [] => .error "no installations found for this GitHub App"
  | [inst] => .ok inst.id
  | _ :: _ :: _ =>
    .error ("multiple installations found, set installation_id in config:\n" ++
      goJoin "\n" (insts.map instLine))

/-- `resolveInstallation` (cmd.go lines 267–290): the precedence chain
flag-id, flag-org, env-id, env-org, config, auto-detect. -/
def resolveInstallation (flag env : installationOverride) (configID : Int)
    (insts : List Installation) : Except String Int :=
  if flag.id > 0 then .ok flag.id
  else if flag.org ≠ "" then resolveInstallationByOrg insts flag.org
  else if env.id > 0 then .ok env.id
  else if env.org ≠ "" then resolveInstallationByOrg insts env.org
  else if configID > 0 then .ok configID
  else resolveInstallationID insts

/-- A numeric override value the code treats as absent: `strconv.ParseInt`
fails, or the parsed value is not strictly positive (analysis helper for
stating C4; not part of the Go source). -/
def malformedID (v : String) : Bool :=
  match go_parseInt64 v with
  | none => true
  | some id => decide (id ≤ 0)

/-! ### `internal/auth/auth.go` — PEM private-key loading -/

/-- An RSA private key, abstract (only its identity matters to the scanning
and fallback logic). -/
structure RSAKey where
  modulus : Nat := 0
  exponent : Nat := 0
deriving DecidableEq, Repr

/-- What a PKCS#8 container holds: an RSA key or a key of some other type. -/
inductive PKCS8Content where
  | rsa (key : RSAKey)
  | nonRSA
deriving DecidableEq, Repr

/-- The DER payload of a PEM block, abstracted by the outcomes of the two
`x509` parsers on it: `pkcs1` is the result of `x509.ParsePKCS1PrivateKey`
(`none` for a parse error) and `pkcs8` that of `x509.ParsePKCS8PrivateKey`.
The parsers themselves are external library collaborators. -/
structure DerBytes where
  pkcs1 : Option RSAKey
  pkcs8 : Option PKCS8Content
deriving DecidableEq, Repr

/-- One PEM block as `pem.Decode` yields it: declared type and payload. A
PEM file is modelled as the sequence of blocks successive `pem.Decode`
calls produce, in file order. -/
structure PemBlock where
  type : String
  bytes : DerBytes
deriving DecidableEq, Repr

/-- The `keyBlockTypes` set (auth.go lines 68–71). -/
def keyBlockTypes (t : String) : Bool :=
  t = "RSA PRIVATE KEY" || t = "PRIVATE KEY"

/-- `parsePKCS1OrPKCS8` (auth.go lines 87–102): PKCS#1 first, then PKCS#8,
rejecting a PKCS#8 container holding a non-RSA key. -/
def parsePKCS1OrPKCS8 (der : DerBytes) : Except String RSAKey :=
  match der.pkcs1 with
  | some key => .ok key
  | none =>
    match der.pkcs8 with
    | none => .error "parsing private key (tried PKCS1 and PKCS8)"
    | some (.rsa key) => .ok key
    | some .nonRSA => .error "PKCS8 key is not RSA"

/-- `findRSAKey` (auth.go lines 73–85): scan the blocks in file order,
skipping those whose type is not a recognized private-key type; running out
of blocks (`pem.Decode` returning nil) is the decode error. -/
def findRSAKey : List PemBlock → Except String RSAKey
  | [] => .error "no RSA private key PEM block found"
  | b :: rest =>
    if keyBlockTypes b.type then parsePKCS1OrPKCS8 b.bytes else findRSAKey rest

/-! ### Generic helper lemmas -/

theorem listStartsWith_of_append (p l r : List Char) (h : listStartsWith p l = true) :
    listStartsWith p (l ++ r) = true := by
  induction p generalizing l with
  | nil => rfl
  | cons a ps ih =>
    cases l with
    | nil => simp [listStartsWith] at h
    | cons c cs =>
      simp only [listStartsWith, List.cons_append, Bool.and_eq_true] at h ⊢
      exact ⟨h.1, ih cs h.2⟩

theorem listStartsWith_append_self (p r : List Char) :
    listStartsWith p (p ++ r) = true := by
  induction p with
  | nil => rfl
  | cons a ps ih => simp [listStartsWith, ih]

/-- Every member of a joined list occurs inside the joined string. -/
theorem goJoin_mem_between (sep : String) :
    ∀ (l : List String), ∀ x ∈ l, ∃ p q, goJoin sep l = p ++ x ++ q := by
  intro l
  induction l with
  | nil => intro x hx; cases hx
  | cons a t ih =>
    intro x hx
    cases t with
    | nil =>
      have hxa : x = a := List.mem_singleton.mp hx
      subst hxa
      exact ⟨"", "", by simp [goJoin, String.empty_append, String.append_empty]⟩
    | cons b t2 =>
      rcases List.mem_cons.mp hx with hx | hx
      · subst hx
        exact ⟨"", sep ++ goJoin sep (b :: t2), by
          simp [goJoin, String.empty_append, String.append_assoc]⟩
      · obtain ⟨p, q, hp⟩ := ih x hx
        refine ⟨a ++ sep ++ p, q, ?_⟩
        simp [goJoin, hp, String.append_assoc]

/-- The authority-error message of the token exchange is never the
empty-token message: the former always starts with `GitHub API error`. -/
theorem statusMsg_ne_emptyMsg (s : Nat) (b : String) :
    ("GitHub API error (HTTP " ++ toString s ++ "): " ++ b) ≠
      "GitHub API returned empty token" := by
  intro h
  have hs : goStartsWith ("GitHub API error (HTTP " ++ toString s ++ "): " ++ b)
      "GitHub API error" = true := by
    unfold goStartsWith
    have hdata : ("GitHub API error (HTTP " ++ toString s ++ "): " ++ b).data =
        ("GitHub API error (HTTP ").data ++
          ((toString s).data ++ ("): ").data ++ b.data) := by
      simp [String.data_append, List.append_assoc]
    rw [hdata]
    exact listStartsWith_of_append _ _ _ (by decide)
  rw [h] at hs
  exact absurd hs (by decide)




/-! ### First theorems: C2 (config validation) and C3 (JWT claims) -/

/-- C2: the claim says a persisted configuration with positive `appID`,
non-empty key path and `installationID = 0` loads successfully (0 meaning
auto-detect). The code rejects it: `Load` evaluated at exactly such a
configuration returns the `installation_id is required in config` error. -/
theorem loadValidate_rejects_zero_installation :
    loadValidate { appID := 123, installationID := 0, privateKeyPath := "/tmp/key.pem" } =
      .error "installation_id is required in config" := by
  rfl

/-- C3 counterexample: at app id 1 and call time 0 the generated expiry claim
is not 10 minutes (600 seconds) after the issued-at claim: issued-at is −30
while expiry is 600, a gap of 630 seconds. -/
theorem generateJWTClaims_ten_minute_gap_false :
    (generateJWTClaims 1 0).issuedAt = -30 ∧
    (generateJWTClaims 1 0).expiresAt = 600 ∧
    (generateJWTClaims 1 0).expiresAt ≠ (generateJWTClaims 1 0).issuedAt + 600 := by
  refine ⟨rfl, rfl, by decide⟩

/-- C3 (amended): for every positive app id and call time, the issuer claim
is the decimal string of the app id, the issued-at claim is 30 seconds before
the call time, and the expiry claim is exactly 10 minutes after the call time
— hence 10 minutes and 30 seconds (630 seconds, not 600) after issued-at. -/
theorem generateJWTClaims_amended (appID now : Int) (_h : 0 < appID) :
    (generateJWTClaims appID now).issuer = toString appID ∧
    (generateJWTClaims appID now).issuedAt = now - 30 ∧
    (generateJWTClaims appID now).expiresAt = now + 600 ∧
    (generateJWTClaims appID now).expiresAt = (generateJWTClaims appID now).issuedAt + 630 := by
  refine ⟨rfl, rfl, rfl, ?_⟩
  simp only [generateJWTClaims]
  omega

/-- C3 witness: the amended theorem evaluated at app id 1 and call time 1000. -/
theorem generateJWTClaims_amended_check :
    (generateJWTClaims 1 1000).issuer = toString (1 : Int) ∧
    (generateJWTClaims 1 1000).issuedAt = 1000 - 30 ∧
    (generateJWTClaims 1 1000).expiresAt = 1000 + 600 ∧
    (generateJWTClaims 1 1000).expiresAt = (generateJWTClaims 1 1000).issuedAt + 630 :=
  generateJWTClaims_amended 1 1000 (by decide)

/-- C7: for every token-exchange response, a non-created (≠ 201) status
yields an error carrying the exact numeric status code and the raw body,
and a created response that unmarshals to an empty token field yields the
dedicated empty-token error — a failure distinct both from returning the
empty token and from every authority (status) error. -/
theorem handleTokenResponse_error_cases (status : Nat) (body : String)
    (u : Except String InstallationTokenResponse) :
    (status ≠ 201 →
      handleTokenResponse status body u =
        .error ("GitHub API error (HTTP " ++ toString status ++ "): " ++ body) ∧
      ∃ p q, ("GitHub API error (HTTP " ++ toString status ++ "): " ++ body) =
        (p ++ toString status) ++ (q ++ body)) ∧
    (∀ r, u = .ok r → r.token = "" →
      handleTokenResponse 201 body u = .error "GitHub API returned empty token" ∧
      (∀ t : String, handleTokenResponse 201 body u ≠ .ok t)) ∧
    (∀ (s2 : Nat) (b2 : String),
      (Except.error ("GitHub API error (HTTP " ++ toString s2 ++ "): " ++ b2) :
        Except String String) ≠ .error "GitHub API returned empty token") := by
  refine ⟨?_, ?_, ?_⟩
  · intro hs
    refine ⟨by simp [handleTokenResponse, hs], "GitHub API error (HTTP ", "): ",
      (String.append_assoc _ _ _)⟩
  · intro r hu ht
    subst hu
    constructor
    · simp [handleTokenResponse, ht]
    · intro t
      simp [handleTokenResponse, ht]
  · intro s2 b2 h
    exact statusMsg_ne_emptyMsg s2 b2 (Except.error.inj h)

/-- C7 witness: the theorem evaluated at status 404 with body `nope`, and at
a created response whose token field is empty. -/
theorem handleTokenResponse_error_check :
    handleTokenResponse 404 "nope" (.ok { token := "", expiresAt := 0 }) =
      .error ("GitHub API error (HTTP " ++ toString (404 : Nat) ++ "): " ++ "nope") ∧
    handleTokenResponse 201 "body" (.ok { token := "", expiresAt := 0 }) =
      .error "GitHub API returned empty token" := by
  constructor
  · exact ((handleTokenResponse_error_cases 404 "nope"
      (.ok { token := "", expiresAt := 0 })).1 (by decide)).1
  · exact (((handleTokenResponse_error_cases 201 "body"
      (.ok { token := "", expiresAt := 0 })).2.1
      { token := "", expiresAt := 0 } rfl rfl)).1

/-- C6 counterexample: with current environment `[GH_TOKEN_OLD=x]` and token
`t`, the constructed child environment keeps `GH_TOKEN_OLD=x` — an entry
whose variable name falls under the name prefix `GH_TOKEN` — even though it
is not the freshly injected entry: the deny list matches exact variable
names, not name prefixes. -/
theorem buildEnv_name_prefix_counterexample :
    buildEnv ["GH_TOKEN_OLD=x"] "t" = ["GH_TOKEN_OLD=x", "GH_TOKEN=t"] ∧
    goStartsWith (envVarName "GH_TOKEN_OLD=x") "GH_TOKEN" = true ∧
    ("GH_TOKEN_OLD=x" : String) ≠ "GH_TOKEN=" ++ "t" := by
  refine ⟨by decide, by decide, by decide⟩

/-- C6 (amended): the deny list matches the exact variable names `GH_TOKEN`
and `GITHUB_TOKEN` (entries starting `GH_TOKEN=` or `GITHUB_TOKEN=`), not
name prefixes. For every environment and token, the constructed child
environment contains no entry of a deny-listed variable other than the
freshly injected one, the injected `GH_TOKEN` entry is appended last after
filtering, and every entry of a non-deny-listed variable is preserved. -/
theorem buildEnv_exact_name_denylist (env : List String) (token : String) :
    (∀ e ∈ buildEnv env token,
      (goStartsWith e ("GH_TOKEN" ++ "=") = true ∨
       goStartsWith e ("GITHUB_TOKEN" ++ "=") = true) →
      e = "GH_TOKEN=" ++ token) ∧
    (∀ e ∈ env, goStartsWith e ("GH_TOKEN" ++ "=") = false →
      goStartsWith e ("GITHUB_TOKEN" ++ "=") = false →
      e ∈ buildEnv env token) ∧
    (buildEnv env token).getLast? = some ("GH_TOKEN=" ++ token) := by
  refine ⟨?_, ?_, ?_⟩
  · intro e he _hd
    rcases List.mem_append.mp he with hf | hinj
    · exfalso
      have hp := (List.mem_filter.mp hf).2
      simp only [List.any_cons, List.any_nil, Bool.not_eq_true', Bool.or_eq_false_iff] at hp
      rcases _hd with hd | hd
      · rw [hp.1] at hd; cases hd
      · rw [hp.2.1] at hd; cases hd
    · exact List.mem_singleton.mp hinj
  · intro e he h1 h2
    refine List.mem_append.mpr (Or.inl ?_)
    refine List.mem_filter.mpr ⟨he, ?_⟩
    simp only [List.any_cons, List.any_nil, Bool.not_eq_true', Bool.or_eq_false_iff]
    exact ⟨h1, h2, trivial⟩
  · exact List.getLast?_concat _

/-- C6 witness: at environment `[PATH=/bin, GITHUB_TOKEN=old]` and token
`newtok`, the non-deny-listed entry is preserved and the injected entry is
appended last. -/
theorem buildEnv_exact_name_check :
    ("PATH=/bin" ∈ buildEnv ["PATH=/bin", "GITHUB_TOKEN=old"] "newtok") ∧
    (buildEnv ["PATH=/bin", "GITHUB_TOKEN=old"] "newtok").getLast? =
      some ("GH_TOKEN=" ++ "newtok") := by
  constructor
  · exact (buildEnv_exact_name_denylist ["PATH=/bin", "GITHUB_TOKEN=old"] "newtok").2.1
      "PATH=/bin" (by decide) (by decide) (by decide)
  · exact (buildEnv_exact_name_denylist ["PATH=/bin", "GITHUB_TOKEN=old"] "newtok").2.2


/-- C1: `resolveInstallation` returns the value of the first present source
in the fixed order flag numeric id, flag org (resolved against the listing),
env numeric id, env org (resolved against the listing), positive config id,
auto-detection; a numeric id beats an org name supplied at the same tier
(the first and third conjuncts hold whatever `flag.org` resp. `env.org`
are). -/
theorem resolveInstallation_precedence (flag env : installationOverride)
    (configID : Int) (insts : List Installation) :
    (0 < flag.id → resolveInstallation flag env configID insts = .ok flag.id) ∧
    (flag.id ≤ 0 → flag.org ≠ "" →
      resolveInstallation flag env configID insts = resolveInstallationByOrg insts flag.org) ∧
    (flag.id ≤ 0 → flag.org = "" → 0 < env.id →
      resolveInstallation flag env configID insts = .ok env.id) ∧
    (flag.id ≤ 0 → flag.org = "" → env.id ≤ 0 → env.org ≠ "" →
      resolveInstallation flag env configID insts = resolveInstallationByOrg insts env.org) ∧
    (flag.id ≤ 0 → flag.org = "" → env.id ≤ 0 → env.org = "" → 0 < configID →
      resolveInstallation flag env configID insts = .ok configID) ∧
    (flag.id ≤ 0 → flag.org = "" → env.id ≤ 0 → env.org = "" → configID ≤ 0 →
      resolveInstallation flag env configID insts = resolveInstallationID insts) := by
  refine ⟨?_, ?_, ?_, ?_, ?_, ?_⟩
  · intro h1
    simp only [resolveInstallation]
    rw [if_pos h1]
  · intro h1 h2
    simp only [resolveInstallation]
    rw [if_neg (by omega), if_pos h2]
  · intro h1 h2 h3
    simp only [resolveInstallation]
    rw [if_neg (by omega), if_neg (by simp [h2]), if_pos h3]
  · intro h1 h2 h3 h4
    simp only [resolveInstallation]
    rw [if_neg (by omega), if_neg (by simp [h2]), if_neg (by omega), if_pos h4]
  · intro h1 h2 h3 h4 h5
    simp only [resolveInstallation]
    rw [if_neg (by omega), if_neg (by simp [h2]), if_neg (by omega),
      if_neg (by simp [h4]), if_pos h5]
  · intro h1 h2 h3 h4 h5
    simp only [resolveInstallation]
    rw [if_neg (by omega), if_neg (by simp [h2]), if_neg (by omega),
      if_neg (by simp [h4]), if_neg (by omega)]

/-- C1 witness: with flag id 5 and flag org `acme` both supplied, env id 7,
env org `beta` and config id 9 also present, the flag numeric id wins. -/
theorem resolveInstallation_precedence_check :
    resolveInstallation ⟨5, "acme"⟩ ⟨7, "beta"⟩ 9 [] = .ok (5 : Int) :=
  (resolveInstallation_precedence ⟨5, "acme"⟩ ⟨7, "beta"⟩ 9 []).1 (by decide)

/-- C5: with no flag, environment or config source present, resolution is
exactly auto-detection from the listing, which fails with the
no-installations error on an empty listing, returns the unique
installation's id on a singleton listing, and on a listing of two or more
fails with the ambiguous-installations error whose message lists every
`(id, login)` pair. -/
theorem resolveInstallationID_autodetect_cases (insts : List Installation) :
    (resolveInstallation ⟨0, ""⟩ ⟨0, ""⟩ 0 insts = resolveInstallationID insts) ∧
    (insts = [] →
      resolveInstallationID insts = .error "no installations found for this GitHub App") ∧
    (∀ i, insts = [i] → resolveInstallationID insts = .ok i.id) ∧
    (2 ≤ insts.length →
      resolveInstallationID insts =
        .error ("multiple installations found, set installation_id in config:\n" ++
          goJoin "\n" (insts.map instLine)) ∧
      ∀ i ∈ insts, ∃ p q, goJoin "\n" (insts.map instLine) = p ++ instLine i ++ q) := by
  refine ⟨?_, ?_, ?_, ?_⟩
  · simp [resolveInstallation]
  · intro h; subst h; rfl
  · intro i h; subst h; rfl
  · intro hlen
    match insts, hlen with
    | a :: b :: t, _ =>
      refine ⟨rfl, ?_⟩
      intro i hi
      exact goJoin_mem_between "\n" _ (instLine i) (List.mem_map_of_mem instLine hi)

/-- C5 witness: a singleton listing auto-detects to that installation's id,
and a two-element listing yields the enumerating ambiguity error. -/
theorem resolveInstallationID_autodetect_check :
    resolveInstallationID [⟨42, "acme"⟩] = .ok (42 : Int) ∧
    resolveInstallation ⟨0, ""⟩ ⟨0, ""⟩ 0 [⟨1, "a"⟩, ⟨2, "b"⟩] =
      .error ("multiple installations found, set installation_id in config:\n" ++
        goJoin "\n" (([⟨1, "a"⟩, ⟨2, "b"⟩] : List Installation).map instLine)) := by
  constructor
  · exact (resolveInstallationID_autodetect_cases [⟨42, "acme"⟩]).2.2.1 ⟨42, "acme"⟩ rfl
  · rw [(resolveInstallationID_autodetect_cases [⟨1, "a"⟩, ⟨2, "b"⟩]).1]
    exact ((resolveInstallationID_autodetect_cases [⟨1, "a"⟩, ⟨2, "b"⟩]).2.2.2 (by decide)).1

/-- A string of plain printable ASCII characters is rendered by `%q` as
itself between quotes. -/
theorem goQuote_plain (s : String) (h : s.data.all plainChar = true) :
    goQuote s = "\"" ++ s ++ "\"" := by
  have hbody : ∀ l : List Char, l.all plainChar = true → quoteBody l = String.mk l := by
    intro l
    induction l with
    | nil => intro _; rfl
    | cons c cs ih =>
      intro hl
      rw [List.all_cons, Bool.and_eq_true] at hl
      have hc : goQuoteChar c = String.singleton c := by
        simp only [plainChar, Bool.and_eq_true, decide_eq_true_eq] at hl
        obtain ⟨⟨⟨h1, h2⟩, h3⟩, h4⟩ := hl.1
        simp only [goQuoteChar, if_neg h3, if_neg h4, if_pos (And.intro h1 h2)]
      rw [quoteBody, hc, ih hl.2]
      apply String.ext
      simp [String.data_append]
  rw [goQuote, hbody s.data h]

/-- C8: resolution by organization name succeeds whenever the listing
contains an installation whose account login equals the requested name under
the case-insensitive comparison, returning such an installation's id — and
only then: every success returns a matching installation's id; when no login
matches, it fails with the error naming the requested org (quoted verbatim
for plain ASCII names) and listing every available installation. -/
theorem resolveInstallationByOrg_spec (insts : List Installation) (org : String) :
    (∀ id, resolveInstallationByOrg insts org = .ok id →
      ∃ inst, inst ∈ insts ∧ inst.id = id ∧ goEqualFold inst.login org = true) ∧
    ((∀ inst ∈ insts, goEqualFold inst.login org = false) →
      resolveInstallationByOrg insts org =
        .error ("no installation found for org " ++ goQuote org ++ ", available:\n" ++
          goJoin "\n" (insts.map instLine)) ∧
      ∀ inst ∈ insts, ∃ p q, goJoin "\n" (insts.map instLine) = p ++ instLine inst ++ q) ∧
    (org.data.all plainChar = true → goQuote org = "\"" ++ org ++ "\"") ∧
    ((∃ inst ∈ insts, goEqualFold inst.login org = true) →
      ∃ inst, inst ∈ insts ∧ goEqualFold inst.login org = true ∧
        resolveInstallationByOrg insts org = .ok inst.id) := by
  refine ⟨?_, ?_, ?_, ?_⟩
  · intro id h
    cases hfind : insts.find? (fun inst => goEqualFold inst.login org) with
    | none => rw [resolveInstallationByOrg, hfind] at h; cases h
    | some inst =>
      rw [resolveInstallationByOrg, hfind] at h
      refine ⟨inst, List.mem_of_find?_eq_some hfind, Except.ok.inj h, ?_⟩
      have := List.find?_some hfind
      simpa using this
  · intro hnone
    have hfind : insts.find? (fun inst => goEqualFold inst.login org) = none := by
      rw [List.find?_eq_none]
      intro x hx
      simp [hnone x hx]
    refine ⟨by rw [resolveInstallationByOrg, hfind], ?_⟩
    intro inst hi
    exact goJoin_mem_between "\n" _ (instLine inst) (List.mem_map_of_mem instLine hi)
  · exact goQuote_plain org
  · rintro ⟨w, hw, hpw⟩
    cases hfind : insts.find? (fun inst => goEqualFold inst.login org) with
    | none =>
      exact absurd hpw (by simpa using List.find?_eq_none.mp hfind w hw)
    | some inst =>
      refine ⟨inst, List.mem_of_find?_eq_some hfind, ?_, ?_⟩
      · have := List.find?_some hfind
        simpa using this
      · rw [resolveInstallationByOrg, hfind]

/-- C8 witness: the listing `[(1, Acme)]` contains a case-insensitive match
for org `acme` and resolution succeeds with that installation's id, while
org `zeta` (matching nothing) yields the enumerating error. -/
theorem resolveInstallationByOrg_check :
    (∃ inst, inst ∈ [(⟨1, "Acme"⟩ : Installation)] ∧ inst.id = 1 ∧
      goEqualFold inst.login "acme" = true) ∧
    (∃ inst, inst ∈ [(⟨1, "Acme"⟩ : Installation)] ∧
      goEqualFold inst.login "acme" = true ∧
      resolveInstallationByOrg [(⟨1, "Acme"⟩ : Installation)] "acme" = .ok inst.id) ∧
    resolveInstallationByOrg [(⟨1, "Acme"⟩ : Installation)] "zeta" =
      .error ("no installation found for org " ++ goQuote "zeta" ++ ", available:\n" ++
        goJoin "\n" ([(⟨1, "Acme"⟩ : Installation)].map instLine)) := by
  refine ⟨?_, ?_, ?_⟩
  · exact (resolveInstallationByOrg_spec [⟨1, "Acme"⟩] "acme").1 1 rfl
  · exact (resolveInstallationByOrg_spec [⟨1, "Acme"⟩] "acme").2.2.2 (by decide)
  · exact ((resolveInstallationByOrg_spec [⟨1, "Acme"⟩] "zeta").2.1 (by decide)).1

/-- C9: key loading uses the first block of the PEM sequence whose declared
type is a recognized private-key type (`RSA PRIVATE KEY` or `PRIVATE KEY`),
skipping every other block; absent such a block it fails with the decode
error; the chosen block parses as PKCS#1 first, falls back to PKCS#8, and a
PKCS#8 container holding a non-RSA key is the key-format error. -/
theorem findRSAKey_spec (blocks : List PemBlock) (der : DerBytes) (key : RSAKey) :
    (findRSAKey blocks =
      match blocks.find? (fun b => keyBlockTypes b.type) with
      | none => .error "no RSA private key PEM block found"
      | some b => parsePKCS1OrPKCS8 b.bytes) ∧
    (der.pkcs1 = some key → parsePKCS1OrPKCS8 der = .ok key) ∧
    (der.pkcs1 = none → der.pkcs8 = some (.rsa key) → parsePKCS1OrPKCS8 der = .ok key) ∧
    (der.pkcs1 = none → der.pkcs8 = some .nonRSA →
      parsePKCS1OrPKCS8 der = .error "PKCS8 key is not RSA") := by
  refine ⟨?_, ?_, ?_, ?_⟩
  · induction blocks with
    | nil => rfl
    | cons b rest ih =>
      cases hb : keyBlockTypes b.type with
      | true =>
        have hf : (b :: rest).find? (fun x => keyBlockTypes x.type) = some b :=
          List.find?_cons_of_pos rest hb
        rw [findRSAKey, if_pos hb, hf]
      | false =>
        have hf : (b :: rest).find? (fun x => keyBlockTypes x.type) =
            rest.find? (fun x => keyBlockTypes x.type) :=
          List.find?_cons_of_neg rest (by simp [hb])
        rw [findRSAKey, if_neg (by simp [hb]), hf]
        exact ih
  · intro h; rw [parsePKCS1OrPKCS8, h]
  · intro h1 h2; rw [parsePKCS1OrPKCS8, h1, h2]
  · intro h1 h2; rw [parsePKCS1OrPKCS8, h1, h2]

/-- C9 witness: a certificate block followed by an `RSA PRIVATE KEY` block
is resolved to the second block's PKCS#1 key. -/
theorem findRSAKey_check :
    findRSAKey
      [{ type := "CERTIFICATE", bytes := { pkcs1 := none, pkcs8 := none } },
       { type := "RSA PRIVATE KEY",
         bytes := { pkcs1 := some { modulus := 3, exponent := 5 }, pkcs8 := none } }] =
      .ok { modulus := 3, exponent := 5 } := by
  have h := findRSAKey_spec
    [{ type := "CERTIFICATE", bytes := { pkcs1 := none, pkcs8 := none } },
     { type := "RSA PRIVATE KEY",
       bytes := { pkcs1 := some { modulus := 3, exponent := 5 }, pkcs8 := none } }]
    { pkcs1 := some { modulus := 3, exponent := 5 }, pkcs8 := none }
    { modulus := 3, exponent := 5 }
  exact h.1.trans (h.2.1 rfl)

theorem setID_malformed (o : installationOverride) (v : String)
    (h : malformedID v = true) : setID o v = o := by
  unfold setID malformedID at *
  cases hp : go_parseInt64 v with
  | none => rfl
  | some id =>
    rw [hp] at h
    simp only [decide_eq_true_eq] at h
    show (if id > 0 then { o with id := id } else o) = o
    rw [if_neg (by omega)]

theorem append_ne_head_lit (v : String) :
    ("--installation-id=" ++ v) ≠ "--installation-id" := by
  intro h
  have h2 := congrArg (fun s : String => s.data.length) h
  simp only [String.data_append, List.length_append] at h2
  rw [show ("--installation-id=" : String).data.length = 18 from rfl,
    show ("--installation-id" : String).data.length = 17 from rfl] at h2
  omega

theorem goStartsWith_append (pre v : String) :
    goStartsWith (pre ++ v) pre = true := by
  unfold goStartsWith
  rw [String.data_append]
  exact listStartsWith_append_self pre.data v.data

theorem goTrimStart_append (pre v : String) :
    goTrimStart (pre ++ v) pre = v := by
  unfold goTrimStart
  rw [if_pos (goStartsWith_append pre v), String.data_append, List.drop_left]

theorem parseLoop_id_eq_form (v : String) (rest : List String)
    (o : installationOverride) (acc : List String) :
    parseLoop (("--installation-id=" ++ v) :: rest) o acc =
      parseLoop rest (setID o v) acc := by
  rw [parseLoop.eq_def]
  simp only [if_neg (append_ne_head_lit v),
    if_pos (goStartsWith_append "--installation-id=" v), goTrimStart_append]


theorem resolveInstallationFromEnv_malformed (v envOrg : String)
    (h : malformedID v = true) :
    (resolveInstallationFromEnv v envOrg).id = 0 ∧
      resolveInstallationFromEnv v "" = {} := by
  have hmid :
      (if v ≠ "" then
        match go_parseInt64 v with
        | some id => if id > 0 then { ({} : installationOverride) with id := id } else {}
        | none => ({} : installationOverride)
      else {}) = ({} : installationOverride) := by
    by_cases hv : v = ""
    · simp [hv]
    · simp only [ne_eq, hv, not_false_iff, if_true]
      unfold malformedID at h
      cases hp : go_parseInt64 v with
      | none => rfl
      | some id =>
        rw [hp] at h
        simp only [decide_eq_true_eq] at h
        show (if id > 0 then { ({} : installationOverride) with id := id } else {}) =
          ({} : installationOverride)
        rw [if_neg (by omega)]
  constructor
  · simp only [resolveInstallationFromEnv]
    rw [hmid]
    by_cases ho : envOrg = ""
    · simp [ho]
    · simp [ho]
  · simp only [resolveInstallationFromEnv]
    rw [hmid]
    simp

/-- C4: a numeric installation override that fails to parse or is not
strictly positive is treated as absent at both the flag tier (either flag
form) and the environment tier, and resolution then succeeds from a later
tier that supplies a valid value (here the config tier). -/
theorem malformed_numeric_override_falls_through (v : String) (rest : List String)
    (o : installationOverride) (acc : List String) (envOrg : String)
    (configID : Int) (insts : List Installation) (hmal : malformedID v = true) :
    (parseLoop ("--installation-id" :: v :: rest) o acc = parseLoop rest o acc) ∧
    (parseLoop (("--installation-id=" ++ v) :: rest) o acc = parseLoop rest o acc) ∧
    ((resolveInstallationFromEnv v envOrg).id = 0) ∧
    (0 < configID →
      resolveInstallation (parseInstallationFlags ["--installation-id", v]).1
        (resolveInstallationFromEnv v "") configID insts = .ok configID) := by
  refine ⟨?_, ?_, ?_, ?_⟩
  · rw [show parseLoop ("--installation-id" :: v :: rest) o acc =
        parseLoop rest (setID o v) acc by simp [parseLoop],
      setID_malformed o v hmal]
  · rw [parseLoop_id_eq_form, setID_malformed o v hmal]
  · exact (resolveInstallationFromEnv_malformed v envOrg hmal).1
  · intro hcfg
    have hflag : (parseInstallationFlags ["--installation-id", v]).1 = {} := by
      unfold parseInstallationFlags
      rw [show parseLoop ["--installation-id", v] {} [] =
          parseLoop [] (setID {} v) [] by simp [parseLoop],
        setID_malformed {} v hmal]
      rfl
    rw [hflag, (resolveInstallationFromEnv_malformed v envOrg hmal).2]
    simp only [resolveInstallation]
    rw [if_neg (by decide), if_neg (by decide), if_neg (by decide), if_neg (by decide),
      if_pos hcfg]

/-- C4 witness: the unparseable override value `notanumber`, supplied as a
flag (either form) and as the environment variable, is ignored and config id
5 is resolved. -/
theorem malformed_numeric_override_check :
    (parseLoop ["--installation-id", "notanumber", "pr"] {} [] =
      parseLoop ["pr"] {} []) ∧
    (parseLoop ["--installation-id=" ++ "notanumber", "pr"] {} [] =
      parseLoop ["pr"] {} []) ∧
    ((resolveInstallationFromEnv "notanumber" "").id = 0) ∧
    (0 < (5 : Int) →
      resolveInstallation (parseInstallationFlags ["--installation-id", "notanumber"]).1
        (resolveInstallationFromEnv "notanumber" "") 5 [] = .ok 5) :=
  malformed_numeric_override_falls_through "notanumber" ["pr"] {} [] "" 5 [] (by decide)

/-- One trailing bare flag is kept by the loop whatever the accumulated
state: when the argument list ends in `--installation-id` or `--org`
reached at a flag position (i.e. not consumed as a preceding flag's value,
`dangles args = false`), the loop's override result is unchanged and the
bare flag is appended to the remaining arguments. -/
theorem parseLoop_bare_trailing (b : String)
    (hb : b = "--installation-id" ∨ b = "--org") :
    ∀ (n : Nat) (args : List String), args.length ≤ n →
      ∀ (o : installationOverride) (acc : List String), dangles args = false →
        parseLoop (args ++ [b]) o acc =
          ((parseLoop args o acc).1, (parseLoop args o acc).2 ++ [b]) := by
  intro n
  induction n with
  | zero =>
    intro args hlen o acc _hd
    have hargs : args = [] := List.length_eq_zero.mp (Nat.le_zero.mp hlen)
    subst hargs
    rcases hb with hb | hb <;> subst hb <;>
      simp [parseLoop, show goStartsWith "--org" "--installation-id=" = false from rfl]
  | succ n ih =>
    intro args hlen o acc hd
    cases args with
    | nil =>
      rcases hb with hb | hb <;> subst hb <;>
        simp [parseLoop, show goStartsWith "--org" "--installation-id=" = false from rfl]
    | cons a rest =>
      by_cases h1 : a = "--installation-id"
      · subst h1
        cases rest with
        | nil => simp [dangles] at hd
        | cons v tail =>
          have hd2 : dangles tail = false := by
            rw [dangles.eq_def] at hd
            simpa using hd
          have e1 : parseLoop (("--installation-id" :: v :: tail) ++ [b]) o acc =
              parseLoop (tail ++ [b]) (setID o v) acc := by
            simp [parseLoop]
          have e2 : parseLoop ("--installation-id" :: v :: tail) o acc =
              parseLoop tail (setID o v) acc := by
            simp [parseLoop]
          rw [e1, e2]
          exact ih tail (by simp at hlen ⊢; omega) (setID o v) acc hd2
      · by_cases h3 : a = "--org"
        · subst h3
          cases rest with
          | nil => simp [dangles] at hd
          | cons v tail =>
            have hd2 : dangles tail = false := by
              rw [dangles.eq_def] at hd
              simpa using hd
            have e1 : parseLoop (("--org" :: v :: tail) ++ [b]) o acc =
                parseLoop (tail ++ [b]) { o with org := v } acc := by
              simp [parseLoop, show goStartsWith "--org" "--installation-id=" = false from rfl]
            have e2 : parseLoop ("--org" :: v :: tail) o acc =
                parseLoop tail { o with org := v } acc := by
              simp [parseLoop, show goStartsWith "--org" "--installation-id=" = false from rfl]
            rw [e1, e2]
            exact ih tail (by simp at hlen ⊢; omega) { o with org := v } acc hd2
        · have hd2 : dangles rest = false := by
            rw [dangles.eq_def] at hd
            simpa [h1, h3] using hd
          have hlen2 : rest.length ≤ n := by simp at hlen; omega
          by_cases h2 : goStartsWith a "--installation-id=" = true
          · have e1 : parseLoop ((a :: rest) ++ [b]) o acc =
                parseLoop (rest ++ [b]) (setID o (goTrimStart a "--installation-id=")) acc := by
              rw [List.cons_append, parseLoop.eq_def]
              simp [h1, h2]
            have e2 : parseLoop (a :: rest) o acc =
                parseLoop rest (setID o (goTrimStart a "--installation-id=")) acc := by
              rw [parseLoop.eq_def]
              simp [h1, h2]
            rw [e1, e2]
            exact ih rest hlen2 _ acc hd2
          · by_cases h4 : goStartsWith a "--org=" = true
            · have e1 : parseLoop ((a :: rest) ++ [b]) o acc =
                  parseLoop (rest ++ [b]) { o with org := goTrimStart a "--org=" } acc := by
                rw [List.cons_append, parseLoop.eq_def]
                simp [h1, h2, h3, h4]
              have e2 : parseLoop (a :: rest) o acc =
                  parseLoop rest { o with org := goTrimStart a "--org=" } acc := by
                rw [parseLoop.eq_def]
                simp [h1, h2, h3, h4]
              rw [e1, e2]
              exact ih rest hlen2 _ acc hd2
            · have e1 : parseLoop ((a :: rest) ++ [b]) o acc =
                  parseLoop (rest ++ [b]) o (acc ++ [a]) := by
                rw [List.cons_append, parseLoop.eq_def]
                simp [h1, h2, h3, h4]
              have e2 : parseLoop (a :: rest) o acc =
                  parseLoop rest o (acc ++ [a]) := by
                rw [parseLoop.eq_def]
                simp [h1, h2, h3, h4]
              rw [e1, e2]
              exact ih rest hlen2 o (acc ++ [a]) hd2

/-- C10: an argument list ending in a bare `--installation-id` or `--org`
(with no following value to consume) parses to the same override as without
that final element, and the bare flag is kept among the remaining arguments
forwarded to the child command. -/
theorem parseInstallationFlags_bare_trailing_flag (b : String) (args : List String)
    (hb : b = "--installation-id" ∨ b = "--org") (hd : dangles args = false) :
    parseInstallationFlags (args ++ [b]) =
      ((parseInstallationFlags args).1, (parseInstallationFlags args).2 ++ [b]) := by
  unfold parseInstallationFlags
  exact parseLoop_bare_trailing b hb args.length args le_rfl {} [] hd

/-- C10 witness: `[pr, list, --installation-id]` parses to no override with
all three arguments, including the bare flag, forwarded. -/
theorem parseInstallationFlags_bare_trailing_check :
    parseInstallationFlags (["pr", "list"] ++ ["--installation-id"]) =
      ((parseInstallationFlags ["pr", "list"]).1,
        (parseInstallationFlags ["pr", "list"]).2 ++ ["--installation-id"]) :=
  parseInstallationFlags_bare_trailing_flag "--installation-id" ["pr", "list"]
    (Or.inl rfl) (by decide)

end GhaCli
